import Mathlib

set_option maxHeartbeats 1000000
set_option synthInstance.maxHeartbeats 400000
set_option linter.unusedVariables false

/-!
Verification development for the piker trading platform's execution
management system (EMS) and its supporting infrastructure.

The definitions below are a shallow embedding of:

* `piker/clearing/_ems.py` — `mk_check`, the `_DarkBook` state, the dark
  trigger loop `clear_dark_triggers`, the broker event translator
  `translate_and_relay_brokerd_events`, and the client command processor
  `process_client_order_cmds`;
* `piker/data/feed.py` — the `attach_feed_bus` allocation protocol,
  modelled as an interleaving of the atomic segments between await points
  of two subscriber tasks;
* `piker/brokers/kraken.py` — the watchdog counter of `recv_msg`.

Python floats are embedded as rationals (`ℚ`), dicts as association
lists, and message objects as plain structures.  Fallible paths
(`KeyError`, `UnboundLocalError`, failed asserts, `raise ValueError`)
are embedded with `Except String`.
-/

deriving instance DecidableEq for Except

/-! ## Association-list helpers (embedding of Python dicts / bidict) -/

/-- Lookup in an association list (Python `d.get(k)` / `d[k]`). -/
def lookA {κ α : Type} [DecidableEq κ] : List (κ × α) → κ → Option α
  | [], _ => none
  | (k, v) :: rest, key => if key = k then some v else lookA rest key

/-- Insert-or-replace (Python `d[k] = v`; keeps insertion order for
existing keys, appends new keys, as CPython dicts do). -/
def setA {κ α : Type} [DecidableEq κ] : List (κ × α) → κ → α → List (κ × α)
  | [], key, val => [(key, val)]
  | (k, v) :: rest, key, val =>
    if key = k then (key, val) :: rest else (k, v) :: setA rest key val

/-- Remove a key (Python `d.pop(k)`); removes the first binding. -/
def delA {κ α : Type} [DecidableEq κ] : List (κ × α) → κ → List (κ × α)
  | [], _ => []
  | (k, v) :: rest, key => if key = k then rest else (k, v) :: delA rest key

/-- Inverse lookup by value (the `bidict.inverse.get(v)` of
`_ems2brokerd_ids`; well-defined on the book since the map is kept
bijective). -/
def invA {κ α : Type} [DecidableEq α] : List (κ × α) → α → Option κ
  | [], _ => none
  | (k, v) :: rest, val => if val = v then some k else invA rest val

/-! ## `mk_check` (piker/clearing/_ems.py lines 46-78) -/

/-- The two closures `mk_check` can produce: `check_gt` (`price >=
trigger_price`) and `check_lt` (`price <= trigger_price`), reified as
first-order data so predicates stored in the book stay executable. -/
inductive TriggerPred
  | gte (trigger : ℚ)
  | lte (trigger : ℚ)
deriving DecidableEq

/-- Application of a reified predicate (calling the closure). -/
def checkPred : TriggerPred → ℚ → Bool
  | .gte t, price => decide (price ≥ t)
  | .lte t, price => decide (price ≤ t)

/-- Embedding of `mk_check(trigger_price, known_last, action)`: picks
`check_gt` when `trigger_price >= known_last`, else `check_lt` when
`trigger_price <= known_last`, else returns `None`.  The `action`
argument is accepted and ignored exactly as in the source body. -/
def mk_check (trigger_price known_last : ℚ) (action : String) : Option TriggerPred :=
  if trigger_price ≥ known_last then some (.gte trigger_price)
  else if trigger_price ≤ known_last then some (.lte trigger_price)
  else none

/-! ## Message and book data model

Modelled from the spec: the message classes live in
`piker/clearing/_messages.py`, which is not among the provided source
files; their fields follow spec §3 (`Order`, `Status`, `BrokerdOrder`,
`BrokerdCancel`, `BrokerdOrderAck`, `BrokerdStatus`, `BrokerdFill`,
`BrokerdError`, `BrokerdPosition`).  `time_ns` fields are omitted: they
are wall-clock stamps that no claim depends on. -/

/-- A client order command (spec §3 `Order`); also the shape of the raw
`cmd` dict stored in the dark book. -/
structure Cmd where
  action : String
  oid : String
  symbol : String
  price : ℚ
  size : ℚ
  exec_mode : String
  brokers : List String
deriving DecidableEq

/-- One tick of a quote (spec §4.3 / glossary): a `type` tag and a price. -/
structure Tick where
  type : String
  price : ℚ
deriving DecidableEq

/-- A value stored in `_DarkBook._ems_entries[oid]`: the most recent
brokerd-flow message for the order.  `bOrder`/`bCancel`/`bAck` mirror
`BrokerdOrder`/`BrokerdCancel`/`BrokerdOrderAck`; `clientOrder` is a raw
client `Order`, which only ever lands here through the stale-`msg`
assignment in the cancel branch of `process_client_order_cmds`. -/
inductive EmsEntry
  | bOrder (action : String) (oid : String) (reqid : Option Nat)
      (symbol : String) (price : ℚ) (size : ℚ)
  | bCancel (oid : String) (reqid : Option Nat)
  | bAck (oid : String) (reqid : Nat)
  | clientOrder (cmd : Cmd)
deriving DecidableEq

/-- The `.oid` attribute of an ems-entry message. -/
def entryOid : EmsEntry → String
  | .bOrder _ oid _ _ _ _ => oid
  | .bCancel oid _ => oid
  | .bAck oid _ => oid
  | .clientOrder c => c.oid

/-- The `.action` attribute of an ems-entry message (a
`BrokerdOrderAck` has no action attribute; reading it in the source
would fault, which the one call site never does for a well-formed
flow, so it is embedded as `none`). -/
def entryAction : EmsEntry → Option String
  | .bOrder a _ _ _ _ _ => some a
  | .bCancel _ _ => some "cancel"
  | .bAck _ _ => none
  | .clientOrder c => some c.action

/-- The `.reqid` attribute of an ems-entry message; a raw client
`Order` has no such attribute, which is a Python `AttributeError`. -/
def entryReqid : EmsEntry → Except String (Option Nat)
  | .bOrder _ _ r _ _ _ => .ok r
  | .bCancel _ r => .ok r
  | .bAck _ r => .ok (some r)
  | .clientOrder _ => .error "AttributeError"

/-- A dark-book execution entry: the 5-tuple registered under
`orders[symbol][oid]` by `process_client_order_cmds`. -/
structure Entry where
  pred : Option TriggerPred
  tickFilter : List String
  cmd : Cmd
  percent_away : ℚ
  abs_diff_away : ℚ
deriving DecidableEq

/-- Embedding of `_DarkBook` (piker/clearing/_ems.py lines 81-115). -/
structure DarkBook where
  orders : List (String × List (String × Entry))
  lasts : List ((String × String) × ℚ)
  ems_entries : List (String × EmsEntry)
  ems2brokerd_ids : List (String × Nat)
deriving DecidableEq

/-- An inbound brokerd event as a flat record: `name` is the tag
(`position`, `ack`, `status`, `fill`, `error`, ...); the remaining
fields are the keys the translator reads (`status`/`remaining` are
meaningful for `status` events, `paperOid` is
`broker_details.paper_info.oid` when present, `ext` is the
`external` flag). -/
structure BMsg where
  name : String
  reqid : Nat
  oid : Option String
  status : String
  remaining : ℚ
  paperOid : Option String
  ext : Bool
deriving DecidableEq

/-- A message sent on one of the two outbound streams: orders/cancels to
the brokerd trades stream, `Status`/position relays to the EMS client
stream.  `statusMsg` fields: oid, resp, symbol, trigger_price,
broker_reqid, and the relayed raw brokerd message (`brokerd_msg`). -/
inductive OutMsg
  | brokerdOrder (action : String) (oid : String) (reqid : Option Nat)
      (symbol : String) (price : ℚ) (size : ℚ)
  | brokerdCancel (oid : String) (reqid : Option Nat)
  | statusMsg (oid : String) (resp : Option String) (symbol : Option String)
      (trigger_price : Option ℚ) (broker_reqid : Option Nat)
      (brokerd_msg : Option BMsg)
  | positionRelay (m : BMsg)
deriving DecidableEq

/-- The oid carried by an outbound message, when it has one. -/
def outOid : OutMsg → Option String
  | .brokerdOrder _ oid _ _ _ _ => some oid
  | .brokerdCancel oid _ => some oid
  | .statusMsg oid _ _ _ _ _ => some oid
  | .positionRelay _ => none

/-! ## Dark trigger loop (`clear_dark_triggers`, lines 125-251) -/

/-- The price filter passed to `iterticks` in `clear_dark_triggers`
(line 162): `('ask', 'bid', 'trade', 'last')`. -/
def iterticksTypes : List String := ["ask", "bid", "trade", "last"]

/-- Modelled from the spec: `iterticks(quote, types)` lives in
`piker/data/_normalize.py`, which is not among the provided source
files; per spec §4.5 and the glossary it yields the elements of
`quote['ticks']` whose `type` is among `types`. -/
def iterticks (ticks : List Tick) (types : List String) : List Tick :=
  ticks.filter (fun t => decide (t.type ∈ types))

/-- State threaded through the scan of one quote: the live `execs`
dict, the book's `orders`/`lasts`/`_ems_entries` maps, the function
local `symbol` variable (which the source rebinds to `cmd['symbol']`
on every fire, line 185), and the accumulated outbound messages. -/
structure ScanSt where
  execs : List (String × Entry)
  orders : List (String × List (String × Entry))
  lasts : List ((String × String) × ℚ)
  symVar : String
  ems : List (String × EmsEntry)
  out : List OutMsg
deriving DecidableEq

/-- The inner `for oid, (pred, tf, cmd, percent_away, abs_diff_away) in
tuple(execs.items())` loop of `clear_dark_triggers` (lines 170-244),
iterating a snapshot of the entries while mutating the live dict:
skip when the predicate is null, the tick type is outside the entry's
filter, or the predicate is false; on an alert relay
`alert_triggered`; on a dark buy/sell send a `BrokerdOrder` at
`price + abs_diff_away` with `reqid=None`, record it in
`_ems_entries[oid]`, and relay `dark_triggered`; in both cases pop the
entry from the live dict. -/
def clear_dark_triggers_entries (sym : String) (ttype : String) (price : ℚ) :
    List (String × Entry) → List (String × Entry) → String →
    List (String × EmsEntry) → List OutMsg →
    List (String × Entry) × String × List (String × EmsEntry) × List OutMsg
  | [], execs, symVar, ems, out => (execs, symVar, ems, out)
  | (oid, e) :: rest, execs, symVar, ems, out =>
    match e.pred with
    | none => clear_dark_triggers_entries sym ttype price rest execs symVar ems out
    | some p =>
      if ttype ∈ e.tickFilter ∧ checkPred p price = true then
        if e.cmd.action = "alert" then
          clear_dark_triggers_entries sym ttype price rest
            (delA execs oid) e.cmd.symbol ems
            (out ++ [.statusMsg oid (some "alert_triggered") (some e.cmd.symbol)
                      (some price) none none])
        else
          clear_dark_triggers_entries sym ttype price rest
            (delA execs oid) e.cmd.symbol
            (setA ems oid (.bOrder e.cmd.action oid none sym
              (price + e.abs_diff_away) e.cmd.size))
            (out ++ [.brokerdOrder e.cmd.action oid none sym
                      (price + e.abs_diff_away) e.cmd.size,
                     .statusMsg oid (some "dark_triggered") (some e.cmd.symbol)
                      (some price) none none])
      else
        clear_dark_triggers_entries sym ttype price rest execs symVar ems out

/-- Processing of one tick inside the quote scan (lines 159-249):
update `lasts[(broker, symbol)]` (note: keyed by the loop's `symbol`
variable, not the quote key `sym`), run the entries scan over a
snapshot of `execs`, then the loop's `else:` clause writes the
surviving entries back to `orders[symbol]` when non-empty. -/
def clear_dark_triggers_tick (broker sym : String) (s : ScanSt) (t : Tick) : ScanSt :=
  let lasts1 := setA s.lasts (broker, s.symVar) t.price
  let r := clear_dark_triggers_entries sym t.type t.price s.execs s.execs s.symVar s.ems s.out
  let orders1 := if r.1 = [] then s.orders else setA s.orders r.2.1 r.1
  ⟨r.1, orders1, lasts1, r.2.1, r.2.2.1, r.2.2.2⟩

/-- Processing of one `(sym, quote)` pair by `clear_dark_triggers`
(lines 153-249): skip the quote when `orders.get(sym)` is null,
otherwise scan the `iterticks`-filtered ticks; since `execs.pop`
mutates the dict object stored at `orders[sym]` in place, the final
entries dict (empty or not) is reflected at `orders[sym]`. -/
def clear_dark_triggers_quote (broker : String) (book : DarkBook) (symVar : String)
    (sym : String) (ticks : List Tick) : DarkBook × String × List OutMsg :=
  match lookA book.orders sym with
  | none => (book, symVar, [])
  | some execs0 =>
    let s1 := (iterticks ticks iterticksTypes).foldl
      (clear_dark_triggers_tick broker sym)
      ⟨execs0, book.orders, book.lasts, symVar, book.ems_entries, []⟩
    (⟨setA s1.orders sym s1.execs, s1.lasts, s1.ems, book.ems2brokerd_ids⟩,
     s1.symVar, s1.out)

/-! ## Broker event translator
(`translate_and_relay_brokerd_events`, lines 264-467) -/

/-- The `resp`/relay dispatch on a non-ack, non-position event with a
resolved oid (lines 375-467): `error` events are logged and dropped;
`status` events relay a `Status` whose `resp` is `broker_executed`
when the broker status is `filled` with zero `remaining`, is left as
the initial `None` when `filled` with remaining size, and is
`"broker_" + status` otherwise, carrying the raw status message in
the broker details; `fill` events relay `broker_filled`; any other
event name raises `ValueError`. -/
def brokerd_dispatch (book : DarkBook) (m : BMsg) (oid : String) (reqid : Nat) :
    Except String (DarkBook × List OutMsg) :=
  if m.name = "error" then .ok (book, [])
  else if m.name = "status" then
    let resp : Option String :=
      if m.status = "filled" then
        if m.remaining = 0 then some "broker_executed" else none
      else some ("broker_" ++ m.status)
    .ok (book, [.statusMsg oid resp none none (some reqid) (some m)])
  else if m.name = "fill" then
    .ok (book, [.statusMsg oid (some "broker_filled") none none (some reqid) (some m)])
  else .error "ValueError"

/-- The `else:` arm of the oid resolution (lines 336-373 followed by
the dispatch): look up the existing live-flow entry; on an `ack`
register the reqid in the id bimap and either forward a previously
buffered cancel with the fresh reqid filled in (mutating the stored
entry, as `entry.reqid = reqid` does) or replace `_ems_entries[oid]`
with the ack message; on any other event rebind `oid = entry.oid` and
dispatch.  Reading `.action`/`.oid` off a missing entry is a Python
`AttributeError`. -/
def translate_known_oid (book : DarkBook) (m : BMsg) (o : String) :
    Except String (DarkBook × List OutMsg) :=
  let entry := lookA book.ems_entries o
  if m.name = "ack" then
    let book1 := { book with ems2brokerd_ids := setA book.ems2brokerd_ids o m.reqid }
    match entry with
    | none => .error "AttributeError"
    | some e =>
      if entryAction e = some "cancel" then
        .ok ({ book1 with ems_entries := setA book1.ems_entries o (.bCancel (entryOid e) (some m.reqid)) },
             [.brokerdCancel (entryOid e) (some m.reqid)])
      else
        .ok ({ book1 with ems_entries := setA book1.ems_entries o (.bAck o m.reqid) }, [])
  else
    match entry with
    | none => .error "AttributeError"
    | some e => brokerd_dispatch book m (entryOid e) m.reqid

/-- One iteration of `translate_and_relay_brokerd_events` (lines
290-467): relay `position` events straight through; resolve the oid
from the message or the reverse id map (falling back to
`paper_info.oid` for the paper-engine race, else log and drop); with
a resolved oid continue into `translate_known_oid`. -/
def translate_and_relay_step (book : DarkBook) (m : BMsg) :
    Except String (DarkBook × List OutMsg) :=
  if m.name = "position" then .ok (book, [.positionRelay m])
  else
    let oid0 : Option String :=
      match m.oid with
      | some o => some o
      | none => invA book.ems2brokerd_ids m.reqid
    match oid0 with
    | none =>
      match m.paperOid with
      | some o => brokerd_dispatch book m o m.reqid
      | none => .ok (book, [])
    | some o => translate_known_oid book m o

/-! ## Client command processor (`process_client_order_cmds`, lines 470-649) -/

/-- Processor state: the shared dark book plus the function-scoped
`msg` local, which survives across loop iterations and is read before
assignment in the not-yet-acked cancel branch (line 515). -/
structure ProcState where
  book : DarkBook
  msgVar : Option EmsEntry
deriving DecidableEq

/-- One iteration of `process_client_order_cmds` for an inbound client
command (lines 482-649).  `symbol` is the session symbol parameter and
`tick_size` is `feed.symbols[sym].tick_size`.  The local `reqid` is
`_ems2brokerd_ids.inverse.get(oid)`: a lookup of the oid among the
broker-side ids, which never match an ems oid, hence `none`.

* cancel with a live entry: send `BrokerdCancel(oid, reqid or
  live_entry.reqid)` to brokerd;
* cancel without one: assign `_ems_entries[oid] = msg` where `msg` is
  whatever the local last held (`UnboundLocalError` when nothing has
  bound it), then pop any dark entry under the session symbol and
  relay `dark_cancelled` (`KeyError` → logged) ;
* live buy/sell: send a `BrokerdOrder` (a prior live entry makes it a
  modify; its oid is asserted) and record it as the flow entry;
* dark/paper or alert: build the predicate from
  `lasts[(brokers[0], symbol)]` (`KeyError` when unseeded), register
  the 5-tuple under `orders[symbol][oid]`, relay
  `alert_submitted`/`dark_submitted`.  (The source guard
  `action in ('alert')` is a substring test on the string `"alert"`,
  equivalent to equality for the actions reaching this branch.) -/
def process_client_order_cmds_step (symbol : String) (tick_size : ℚ)
    (st : ProcState) (cmd : Cmd) : Except String (ProcState × List OutMsg) :=
  let oid := cmd.oid
  let reqid : Option Nat := none
  let live_entry := lookA st.book.ems_entries oid
  if cmd.action = "cancel" then
    match live_entry with
    | some e =>
      match entryReqid e with
      | .error s => .error s
      | .ok r =>
        let msg : EmsEntry := .bCancel oid (match reqid with | some q => some q | none => r)
        .ok ({ st with msgVar := some msg },
             [.brokerdCancel oid (match reqid with | some q => some q | none => r)])
    | none =>
      match st.msgVar with
      | none => .error "UnboundLocalError"
      | some stale =>
        let ems1 := setA st.book.ems_entries oid stale
        match lookA st.book.orders symbol with
        | none => .ok (⟨{ st.book with ems_entries := ems1 }, st.msgVar⟩, [])
        | some execs =>
          let orders1 := setA st.book.orders symbol (delA execs oid)
          let book1 : DarkBook := { st.book with ems_entries := ems1, orders := orders1 }
          .ok (⟨book1, st.msgVar⟩,
               [.statusMsg oid (some "dark_cancelled") none none none none])
  else if cmd.action = "alert" ∨ cmd.action = "buy" ∨ cmd.action = "sell" then
    let sym := cmd.symbol
    let trigger_price := cmd.price
    let size := cmd.size
    let exec_mode := cmd.exec_mode
    match cmd.brokers with
    | [] => .error "IndexError"
    | broker :: _ =>
      if exec_mode = "live" ∧ (cmd.action = "buy" ∨ cmd.action = "sell") then
        if (match live_entry with | some e => decide (entryOid e = oid) | none => true) = true then
          let msg : EmsEntry := .bOrder cmd.action oid reqid sym trigger_price size
          .ok (⟨{ st.book with ems_entries := setA st.book.ems_entries oid msg }, some msg⟩,
               [.brokerdOrder cmd.action oid reqid sym trigger_price size])
        else .error "AssertionError"
      else if (exec_mode = "dark" ∨ exec_mode = "paper") ∨ cmd.action = "alert" then
        match lookA st.book.lasts (broker, sym) with
        | none => .error "KeyError"
        | some last =>
          let pred := mk_check trigger_price last cmd.action
          let spread_slap : ℚ := 5
          let min_tick := tick_size
          let fpd : List String × ℚ × ℚ :=
            if cmd.action = "buy" then (["ask", "last", "trade"], 1 / 200, spread_slap * min_tick)
            else if cmd.action = "sell" then (["bid", "last", "trade"], -(1 / 200), -(spread_slap * min_tick))
            else (["trade", "utrade", "last"], 0, 0)
          let entry : Entry := ⟨pred, fpd.1, cmd, fpd.2.1, fpd.2.2⟩
          let execs := (lookA st.book.orders sym).getD []
          let resp := if cmd.action = "alert" then "alert_submitted" else "dark_submitted"
          .ok (⟨{ st.book with orders := setA st.book.orders sym (setA execs oid entry) },
                some (.clientOrder cmd)⟩,
               [.statusMsg oid (some resp) none none none none])
      else .ok ({ st with msgVar := some (.clientOrder cmd) }, [])
  else .ok (st, [])

/-! ## Feed bus attach protocol (`attach_feed_bus`, piker/data/feed.py
lines 246-300, with `allocate_persistent_feed` lines 154-243)

Two subscriber tasks attaching to the same `(broker, symbol)` are
modelled as an interleaving of the atomic segments between their await
points.  Feed entries are named by the token the elected writer's
allocation produced, standing for `init_msg` (with its `shm_token`)
and `first_quote`. -/

/-- Local state of one `attach_feed_bus` task.  The program counter
enumerates the atomic segments of the source: 0 = the synchronous
`entry = bus.feeds.get(symbol)` read (line 268, before the lock);
1 = `async with bus.task_lock` acquisition (line 275); 2 = the
`if entry is None:` conditional run of `allocate_persistent_feed`,
whose last effect is registering `bus.feeds[symbol]` (line 212);
3 = lock release; 4 = the `cs, init_msg, first_quote =
bus.feeds[symbol]` read returned to the caller (line 296); 5 = done. -/
structure AttachTask where
  pc : Nat
  entrySnap : Option (Option Nat)
  result : Option Nat
deriving DecidableEq

/-- Shared `_FeedsBus` state for one symbol: the `feeds` entry, the
FIFO `task_lock` owner, how many times `allocate_persistent_feed` has
run, and a counter naming the next allocation's token. -/
structure BusModel where
  feeds : Option Nat
  lockOwner : Option Bool
  allocCount : Nat
  nextTok : Nat
deriving DecidableEq

/-- The whole two-subscriber system: the bus plus tasks A and B. -/
structure AttachSys where
  bus : BusModel
  taskA : AttachTask
  taskB : AttachTask
deriving DecidableEq

/-- One atomic segment of `attach_feed_bus` for task `who`.  A blocked
lock acquisition is a stutter step. -/
def attach_feed_bus_step (bus : BusModel) (t : AttachTask) (who : Bool) :
    BusModel × AttachTask :=
  match t.pc with
  | 0 => (bus, { t with pc := 1, entrySnap := some bus.feeds })
  | 1 =>
    match bus.lockOwner with
    | none => ({ bus with lockOwner := some who }, { t with pc := 2 })
    | some _ => (bus, t)
  | 2 =>
    if t.entrySnap = some none then
      ({ bus with feeds := some bus.nextTok, allocCount := bus.allocCount + 1,
                  nextTok := bus.nextTok + 1 },
       { t with pc := 3 })
    else (bus, { t with pc := 3 })
  | 3 => ({ bus with lockOwner := none }, { t with pc := 4 })
  | 4 => (bus, { t with pc := 5, result := bus.feeds })
  | _ => (bus, t)

/-- Run the task named by the scheduler choice (`false` = A,
`true` = B). -/
def attachStep (s : AttachSys) (who : Bool) : AttachSys :=
  if who then
    match attach_feed_bus_step s.bus s.taskB true with
    | (b, t) => { s with bus := b, taskB := t }
  else
    match attach_feed_bus_step s.bus s.taskA false with
    | (b, t) => { s with bus := b, taskA := t }

/-- Execute a schedule from the initial state: no feed entry, lock
free, no allocations yet, both tasks at their first segment. -/
def attachRun (sched : List Bool) : AttachSys :=
  sched.foldl attachStep ⟨⟨none, none, 0, 0⟩, ⟨0, none, none⟩, ⟨0, none, none⟩⟩

/-! ## Kraken websocket watchdog (`recv_msg`, piker/brokers/kraken.py
lines 280-295) -/

/-- Outcome of one `trio.move_on_after(1.5)`-guarded receive: either
the watchdog fired (`cs.cancelled_caught`) or a message arrived in
time. -/
inductive KrakenRecvEv
  | timeout
  | message
deriving DecidableEq

/-- The per-message watchdog window in seconds
(`trio.move_on_after(1.5)`). -/
def recv_msg_watchdog_seconds : ℚ := 3 / 2

/-- How a run of the `recv_msg` loop over a finite trace of receive
outcomes ends: the trace is exhausted with no raise, the reader
raises `ConnectionClosed` to force a reconnect, or it crashes with
`UnboundLocalError`. -/
inductive RecvOutcome
  | finished
  | connectionClosed
  | unboundLocal
deriving DecidableEq

/-- The `recv_msg` loop body over a trace of receive outcomes, started
from a `too_slow_count` value and a flag recording whether any receive
has yet bound the local `msg`.  A timeout increments the counter and
raises `ConnectionClosed` as soon as the counter exceeds 2 (the source
never resets it); a timeout that does not raise falls through to
`if isinstance(msg, dict)` — reading the unbound local when no message
has ever been received (`UnboundLocalError`), and reprocessing the
stale previous message otherwise, which raises nothing.  A received
message binds `msg` and is processed normally. -/
def recv_msg_run : Nat → Bool → List KrakenRecvEv → RecvOutcome
  | _, _, [] => .finished
  | c, bound, KrakenRecvEv.timeout :: rest =>
    if c + 1 > 2 then .connectionClosed
    else if bound then recv_msg_run (c + 1) bound rest
    else .unboundLocal
  | c, _, KrakenRecvEv.message :: rest => recv_msg_run c true rest

/-- Number of timeouts in a receive trace. -/
def countTimeouts : List KrakenRecvEv → Nat
  | [] => 0
  | KrakenRecvEv.timeout :: rest => countTimeouts rest + 1
  | KrakenRecvEv.message :: rest => countTimeouts rest

/-- Whether a trace contains three consecutive timeouts. -/
def threeConsecTimeouts : List KrakenRecvEv → Bool
  | .timeout :: .timeout :: .timeout :: _ => true
  | _ :: rest => threeConsecTimeouts rest
  | [] => false

/-! ## Helper lemmas about the association-list operations -/

theorem lookA_setA_self {κ α : Type} [DecidableEq κ] (m : List (κ × α)) (k : κ) (v : α) :
    lookA (setA m k v) k = some v := by
  induction m with
  | nil => simp [setA, lookA]
  | cons p rest ih =>
    by_cases h : k = p.1 <;> simp [setA, lookA, h, ih]

theorem lookA_setA_ne {κ α : Type} [DecidableEq κ] (m : List (κ × α)) (k k' : κ) (v : α)
    (h : k' ≠ k) : lookA (setA m k v) k' = lookA m k' := by
  induction m with
  | nil => simp [setA, lookA, h]
  | cons p rest ih =>
    by_cases hk : k = p.1
    · subst hk
      simp [setA, lookA, h]
    · simp [setA, lookA, hk, ih]

theorem lookA_isSome_setA {κ α : Type} [DecidableEq κ] (m : List (κ × α)) (k k' : κ) (v : α)
    (h : (lookA m k').isSome = true) : (lookA (setA m k v) k').isSome = true := by
  by_cases hk : k' = k
  · subst hk
    simp [lookA_setA_self]
  · rwa [lookA_setA_ne m k k' v hk]

theorem lookA_none_of_forall {κ α : Type} [DecidableEq κ] (m : List (κ × α)) (k : κ)
    (h : ∀ p ∈ m, p.1 ≠ k) : lookA m k = none := by
  induction m with
  | nil => simp [lookA]
  | cons p rest ih =>
    have hp : p.1 ≠ k := h p (by simp)
    have : k ≠ p.1 := fun hc => hp hc.symm
    simp only [lookA, if_neg this]
    exact ih (fun q hq => h q (by simp [hq]))

theorem forall_of_lookA_none {κ α : Type} [DecidableEq κ] (m : List (κ × α)) (k : κ)
    (h : lookA m k = none) : ∀ p ∈ m, p.1 ≠ k := by
  induction m with
  | nil => simp
  | cons p rest ih =>
    intro q hq
    by_cases hk : k = p.1
    · simp [lookA, hk] at h
    · simp only [lookA, if_neg hk] at h
      rcases List.mem_cons.mp hq with h1 | h1
      · subst h1
        exact fun hc => hk hc.symm
      · exact ih h q h1

theorem mem_delA {κ α : Type} [DecidableEq κ] {m : List (κ × α)} {k : κ} {p : κ × α}
    (h : p ∈ delA m k) : p ∈ m := by
  induction m with
  | nil => simp [delA] at h
  | cons q rest ih =>
    by_cases hk : k = q.1
    · simp only [delA, if_pos hk] at h
      exact List.mem_cons_of_mem _ h
    · simp only [delA, if_neg hk] at h
      rcases List.mem_cons.mp h with h1 | h1
      · simp [h1]
      · exact List.mem_cons_of_mem _ (ih h1)

theorem lookA_delA_none {κ α : Type} [DecidableEq κ] (m : List (κ × α)) (k k' : κ)
    (h : lookA m k' = none) : lookA (delA m k) k' = none :=
  lookA_none_of_forall _ _ (fun p hp => forall_of_lookA_none m k' h p (mem_delA hp))

/-! ## Claim theorems -/

/-- C10: for every pair of rational inputs `mk_check(trigger_price,
known_last, action)` returns a non-null predicate — `price >=
trigger_price` whenever `trigger_price >= known_last` (including
equality) and `price <= trigger_price` otherwise — so the null branch
is unreachable for totally ordered numeric inputs and a dark order
submitted at exactly the known last price is registered with a
predicate that is already true at that price. -/
theorem C10_mk_check_total (t k : ℚ) (a : String) :
    (mk_check t k a).isSome = true ∧
    (t ≥ k → mk_check t k a = some (.gte t)) ∧
    (¬ t ≥ k → mk_check t k a = some (.lte t)) ∧
    (∀ p, mk_check t t a = some p → checkPred p t = true) := by
  refine ⟨?_, ?_, ?_, ?_⟩
  · by_cases h : t ≥ k
    · simp [mk_check, h]
    · have h2 : t ≤ k := le_of_not_le h
      simp [mk_check, h, h2]
  · intro h
    simp [mk_check, h]
  · intro h
    have h2 : t ≤ k := le_of_not_le h
    simp [mk_check, h, h2]
  · intro p hp
    have h : t ≥ t := le_refl t
    rw [(by simp [mk_check, h] : mk_check t t a = some (.gte t))] at hp
    cases hp
    simp [checkPred]

/-- Witness for C10 at the boundary input `trigger_price = known_last
= 100`: the predicate is non-null, is the `>=` comparison, and holds
at the trigger price itself. -/
theorem C10_mk_check_total_witness :
    (mk_check 100 100 "buy").isSome = true ∧
    mk_check 100 100 "buy" = some (.gte 100) ∧
    checkPred (.gte 100) 100 = true :=
  ⟨(C10_mk_check_total 100 100 "buy").1,
   (C10_mk_check_total 100 100 "buy").2.1 (by norm_num),
   (C10_mk_check_total 100 100 "buy").2.2.2 (.gte 100)
     ((C10_mk_check_total 100 100 "buy").2.1 (by norm_num))⟩

/-- Auxiliary invariant of the kraken watchdog counter once `msg` has
been bound by a successful receive: started from any counter value at
most 2, the reconnect fires along a trace exactly when the starting
count plus the trace's timeouts reaches 3 (the fall-through after a
non-raising timeout reprocesses the stale bound message and raises
nothing). -/
theorem recv_msg_run_bound_iff_aux (tr : List KrakenRecvEv) :
    ∀ c, c ≤ 2 →
      (recv_msg_run c true tr = RecvOutcome.connectionClosed ↔ 3 ≤ c + countTimeouts tr) := by
  induction tr with
  | nil =>
    intro c hc
    simp only [recv_msg_run, countTimeouts]
    constructor
    · intro h
      cases h
    · omega
  | cons e rest ih =>
    intro c hc
    cases e with
    | timeout =>
      by_cases h : c + 1 > 2
      · have hc2 : c = 2 := by omega
        subst hc2
        simp only [recv_msg_run, if_pos h, countTimeouts]
        constructor
        · intro _
          omega
        · intro _
          trivial
      · have hrec := ih (c + 1) (by omega)
        simp only [recv_msg_run, if_neg h, if_pos rfl, if_true, countTimeouts]
        rw [hrec]
        omega
    | message =>
      have hrec := ih c hc
      simp only [recv_msg_run, countTimeouts]
      exact hrec

/-- C9 (amended): once at least one message has been received, the
Kraken websocket reader forces a reconnect (`ConnectionClosed`)
exactly when the trace contains three timeouts in total — the
`too_slow_count` is cumulative over the connection's life, so a
successfully received message does not reset it; a timeout arriving
before any message has been received instead crashes the reader with
`UnboundLocalError` (the fall-through reads the never-assigned `msg`
local), while a fresh connection whose first event is a successful
receive behaves as the cumulative rule says.  The per-receive
watchdog window itself is `recv_msg_watchdog_seconds = 1.5`. -/
theorem C9_kraken_watchdog_cumulative :
    (∀ tr : List KrakenRecvEv,
      recv_msg_run 0 true tr = RecvOutcome.connectionClosed ↔ 3 ≤ countTimeouts tr) ∧
    (∀ tr : List KrakenRecvEv,
      recv_msg_run 0 false (KrakenRecvEv.timeout :: tr) = RecvOutcome.unboundLocal) ∧
    (∀ tr : List KrakenRecvEv,
      recv_msg_run 0 false (KrakenRecvEv.message :: tr) = recv_msg_run 0 true tr) := by
  refine ⟨?_, ?_, ?_⟩
  · intro tr
    have h := recv_msg_run_bound_iff_aux tr 0 (by omega)
    simpa using h
  · intro tr
    simp [recv_msg_run]
  · intro tr
    simp [recv_msg_run]

/-- Counterexample to C9 as stated: on the trace message, timeout,
message, timeout, message, timeout the reader raises the reconnect at
the third timeout even though no three consecutive timeouts ever
occur — the interleaved successful messages do not prevent it. -/
theorem C9_kraken_watchdog_counterexample :
    recv_msg_run 0 false
        [.message, .timeout, .message, .timeout, .message, .timeout] =
      RecvOutcome.connectionClosed ∧
    threeConsecTimeouts [.message, .timeout, .message, .timeout, .message, .timeout] = false := by
  decide

/-- Counterexample to C8 as stated: under the schedule where both
subscribers perform their pre-lock `bus.feeds.get(symbol)` read before
the first allocation registers the feed, both callers run
`allocate_persistent_feed` (the allocation count ends at 2 with both
tasks completed), because the feeds-table check is performed before
the FIFO lock is acquired. -/
theorem C8_attach_feed_bus_counterexample :
    (attachRun [false, false, true, false, false, true, true, true, false, true]).bus.allocCount = 2 ∧
    (attachRun [false, false, true, false, false, true, true, true, false, true]).taskA.pc = 5 ∧
    (attachRun [false, false, true, false, false, true, true, true, false, true]).taskB.pc = 5 := by
  decide

/-- C8 (amended): `attach_feed_bus` is idempotent per symbol for
subscribers whose pre-lock feeds check observes the registered entry —
in particular under sequential attaches the second caller runs no
allocation and receives the same cached entry (same `init_msg` /
`shm_token`), and any task that snapshotted an existing entry leaves
the bus unchanged at its allocation step; but this does not extend to
concurrent first-time attaches, whose check precedes the lock. -/
theorem C8_attach_feed_bus_idempotent_sequential :
    (attachRun [false, false, false, false, false, true, true, true, true, true] =
      ⟨⟨some 0, none, 1, 1⟩, ⟨5, some none, some 0⟩, ⟨5, some (some 0), some 0⟩⟩) ∧
    (∀ (bus : BusModel) (t : AttachTask) (who : Bool) (tok : Nat),
      t.pc = 2 → t.entrySnap = some (some tok) →
      attach_feed_bus_step bus t who = (bus, { t with pc := 3 })) := by
  constructor
  · decide
  · intro bus t who tok h1 h2
    simp [attach_feed_bus_step, h1, h2]

/-- Witness for C8 (amended): a concrete second subscriber that
snapshotted the existing feed entry performs no allocation. -/
theorem C8_attach_feed_bus_idempotent_sequential_witness :
    attach_feed_bus_step ⟨some 0, none, 1, 1⟩ ⟨2, some (some 0), none⟩ true =
      (⟨some 0, none, 1, 1⟩, ⟨3, some (some 0), none⟩) :=
  C8_attach_feed_bus_idempotent_sequential.2 ⟨some 0, none, 1, 1⟩ ⟨2, some (some 0), none⟩ true 0 rfl rfl

/-- C3: evaluation of the code at the failing input.  The first client
command is a `cancel` for an oid with no `_ems_entries` record (the
claimed buffering case): the source's `dark_book._ems_entries[oid] =
msg` reads the function local `msg` before any assignment, a Python
`UnboundLocalError`, instead of writing a `BrokerdCancel`. -/
theorem C3_cancel_before_ack_unbound_msg :
    process_client_order_cmds_step "xbtusd" (1 / 100) ⟨⟨[], [], [], []⟩, none⟩
      ⟨"cancel", "o2", "xbtusd", 0, 0, "live", ["kraken"]⟩ = .error "UnboundLocalError" := by
  decide

/-- C5: evaluation of the code at the failing input.  With
`lasts[(kraken, xbtusd)] = 100` seeded, a dark buy submitted at
exactly `price = 100` is **not** rejected: the processor registers the
entry with the already-true predicate `price >= 100` (since `mk_check`
takes its `>=` branch on equality) and answers
`Status(resp=dark_submitted)` — no `Status(resp=error)` path exists in
the source. -/
theorem C5_immediate_fire_not_rejected :
    process_client_order_cmds_step "xbtusd" (1 / 100)
        ⟨⟨[], [(("kraken", "xbtusd"), 100)], [], []⟩, none⟩
        ⟨"buy", "o1", "xbtusd", 100, 1, "dark", ["kraken"]⟩ =
      .ok (⟨⟨[("xbtusd", [("o1",
              ⟨some (.gte 100), ["ask", "last", "trade"],
               ⟨"buy", "o1", "xbtusd", 100, 1, "dark", ["kraken"]⟩, 1 / 200, 1 / 20⟩)])],
            [(("kraken", "xbtusd"), 100)], [], []⟩,
            some (.clientOrder ⟨"buy", "o1", "xbtusd", 100, 1, "dark", ["kraken"]⟩)⟩,
           [.statusMsg "o1" (some "dark_submitted") none none none none]) ∧
    checkPred (.gte 100) 100 = true := by
  constructor
  · have hbc : ("buy" : String) ≠ "cancel" := by decide
    have hdl : ("dark" : String) ≠ "live" := by decide
    have hba : ("buy" : String) ≠ "alert" := by decide
    have hmul : (5 : ℚ) * (1 / 100) = 1 / 20 := by norm_num
    simp [process_client_order_cmds_step, mk_check, lookA, setA, hbc, hdl, hba, hmul]
    norm_num
  · simp [checkPred]

/-- The dispatch arm never modifies the dark book: every successful
branch returns the input book. -/
theorem brokerd_dispatch_book_eq (book : DarkBook) (m : BMsg) (oid : String) (reqid : Nat)
    (b1 : DarkBook) (out : List OutMsg)
    (h : brokerd_dispatch book m oid reqid = .ok (b1, out)) : b1 = book := by
  unfold brokerd_dispatch at h
  split_ifs at h <;> simp_all

/-- The known-oid arm only ever inserts into `_ems_entries` and the id
bimap (on `ack`); it removes nothing and leaves `orders`/`lasts`
untouched. -/
theorem translate_known_oid_preserves (book : DarkBook) (m : BMsg) (o : String)
    (b1 : DarkBook) (out : List OutMsg)
    (h : translate_known_oid book m o = .ok (b1, out)) :
    (∀ k, (lookA book.ems_entries k).isSome = true → (lookA b1.ems_entries k).isSome = true) ∧
    (∀ k, (lookA book.ems2brokerd_ids k).isSome = true →
      (lookA b1.ems2brokerd_ids k).isSome = true) ∧
    b1.orders = book.orders ∧ b1.lasts = book.lasts := by
  unfold translate_known_oid at h
  by_cases hack : m.name = "ack"
  · rw [if_pos hack] at h
    cases he : lookA book.ems_entries o with
    | none => simp [he] at h
    | some e =>
      simp only [he] at h
      by_cases hc : entryAction e = some "cancel"
      · rw [if_pos hc] at h
        simp only [Except.ok.injEq, Prod.mk.injEq] at h
        obtain ⟨hb, -⟩ := h
        subst hb
        exact ⟨fun k hk => lookA_isSome_setA _ _ _ _ hk,
               fun k hk => lookA_isSome_setA _ _ _ _ hk, rfl, rfl⟩
      · rw [if_neg hc] at h
        simp only [Except.ok.injEq, Prod.mk.injEq] at h
        obtain ⟨hb, -⟩ := h
        subst hb
        exact ⟨fun k hk => lookA_isSome_setA _ _ _ _ hk,
               fun k hk => lookA_isSome_setA _ _ _ _ hk, rfl, rfl⟩
  · rw [if_neg hack] at h
    cases he : lookA book.ems_entries o with
    | none => simp [he] at h
    | some e =>
      simp only [he] at h
      have hb := brokerd_dispatch_book_eq book m (entryOid e) m.reqid b1 out h
      subst hb
      exact ⟨fun k hk => hk, fun k hk => hk, rfl, rfl⟩

/-- C6 (amended): the broker event translator performs no book cleanup
on any event — in particular after a `broker_executed` (or
`broker_cancelled`) status the oid's `_ems_entries` record and its
`ems2brokerd_ids` entry both remain: a key present before an event is
still present after it, and `orders`/`lasts` are untouched (an `ack`
only ever inserts). -/
theorem C6_translator_never_removes_book_entries (book : DarkBook) (m : BMsg)
    (b1 : DarkBook) (out : List OutMsg)
    (h : translate_and_relay_step book m = .ok (b1, out)) :
    (∀ k, (lookA book.ems_entries k).isSome = true → (lookA b1.ems_entries k).isSome = true) ∧
    (∀ k, (lookA book.ems2brokerd_ids k).isSome = true →
      (lookA b1.ems2brokerd_ids k).isSome = true) ∧
    b1.orders = book.orders ∧ b1.lasts = book.lasts := by
  unfold translate_and_relay_step at h
  by_cases hpos : m.name = "position"
  · rw [if_pos hpos] at h
    simp only [Except.ok.injEq, Prod.mk.injEq] at h
    obtain ⟨hb, -⟩ := h
    subst hb
    exact ⟨fun k hk => hk, fun k hk => hk, rfl, rfl⟩
  · rw [if_neg hpos] at h
    cases hmo : m.oid with
    | some o =>
      simp only [hmo] at h
      exact translate_known_oid_preserves book m o b1 out h
    | none =>
      simp only [hmo] at h
      cases hinv : invA book.ems2brokerd_ids m.reqid with
      | some o =>
        simp only [hinv] at h
        exact translate_known_oid_preserves book m o b1 out h
      | none =>
        simp only [hinv] at h
        cases hp : m.paperOid with
        | some o =>
          simp only [hp] at h
          have hb := brokerd_dispatch_book_eq book m o m.reqid b1 out h
          subst hb
          exact ⟨fun k hk => hk, fun k hk => hk, rfl, rfl⟩
        | none =>
          simp only [hp, Except.ok.injEq, Prod.mk.injEq] at h
          obtain ⟨hb, -⟩ := h
          subst hb
          exact ⟨fun k hk => hk, fun k hk => hk, rfl, rfl⟩

/-- Witness for C6 (amended): after a `status(filled, remaining=0)`
event — the one that yields `broker_executed` — the oid `o1` is still
present in `ems2brokerd_ids`. -/
theorem C6_translator_never_removes_book_entries_witness :
    (lookA (DarkBook.mk [] [] [("o1", .bAck "o1" 7)] [("o1", 7)]).ems2brokerd_ids "o1").isSome = true :=
  (C6_translator_never_removes_book_entries
      ⟨[], [], [("o1", .bAck "o1" 7)], [("o1", 7)]⟩
      ⟨"status", 7, none, "filled", 0, none, false⟩
      ⟨[], [], [("o1", .bAck "o1" 7)], [("o1", 7)]⟩
      [.statusMsg "o1" (some "broker_executed") none none (some 7)
        (some ⟨"status", 7, none, "filled", 0, none, false⟩)]
      (by decide)).2.1 "o1" (by decide)

/-- Counterexample to C6 as stated: a broker `status(filled,
remaining=0)` resolving to oid `o1` produces the `broker_executed`
status, yet the book afterwards still carries `o1` in both
`_ems_entries` and `ems2brokerd_ids` — the ack-born bimap entry does
not die on the terminal status. -/
theorem C6_no_cleanup_counterexample :
    translate_and_relay_step ⟨[], [], [("o1", .bAck "o1" 7)], [("o1", 7)]⟩
        ⟨"status", 7, none, "filled", 0, none, false⟩ =
      .ok (⟨[], [], [("o1", .bAck "o1" 7)], [("o1", 7)]⟩,
        [.statusMsg "o1" (some "broker_executed") none none (some 7)
          (some ⟨"status", 7, none, "filled", 0, none, false⟩)]) ∧
    lookA ([("o1", (7 : Nat))]) "o1" = some 7 ∧
    lookA ([("o1", EmsEntry.bAck "o1" 7)]) "o1" = some (.bAck "o1" 7) := by
  decide

/-- C4 (amended): for a broker `status` event carrying a known oid
with an existing flow entry, the translator emits exactly one `Status`
to the client, built on the unchanged book, whose `resp` is
`broker_executed` when the broker-native status is `filled` with
`remaining = 0`, is `"broker_" + status` when the status is not
`filled`, and is left as the null initialiser when the status is
`filled` with nonzero remaining; the raw normalised status message
rides in the broker details. -/
theorem C4_broker_status_translation (book : DarkBook) (m : BMsg) (oid : String) (e : EmsEntry)
    (hname : m.name = "status") (hoid : m.oid = some oid)
    (hentry : lookA book.ems_entries oid = some e) :
    translate_and_relay_step book m =
      .ok (book, [.statusMsg (entryOid e)
        (if m.status = "filled" then
          if m.remaining = 0 then some "broker_executed" else none
         else some ("broker_" ++ m.status))
        none none (some m.reqid) (some m)]) := by
  have h1 : ("status" : String) ≠ "position" := by decide
  have h2 : ("status" : String) ≠ "ack" := by decide
  have h3 : ("status" : String) ≠ "error" := by decide
  simp [translate_and_relay_step, translate_known_oid, brokerd_dispatch,
        hname, hoid, hentry, h1, h2, h3]

/-- Witness for C4 (amended) at a `status=submitted` event: the single
relayed `Status` carries `resp = broker_submitted` and the raw message. -/
theorem C4_broker_status_translation_witness :
    translate_and_relay_step ⟨[], [], [("o1", .bAck "o1" 7)], [("o1", 7)]⟩
        ⟨"status", 7, some "o1", "submitted", 0, none, false⟩ =
      .ok (⟨[], [], [("o1", .bAck "o1" 7)], [("o1", 7)]⟩,
        [.statusMsg "o1" (some ("broker_" ++ "submitted")) none none (some 7)
          (some ⟨"status", 7, some "o1", "submitted", 0, none, false⟩)]) := by
  have h := C4_broker_status_translation ⟨[], [], [("o1", .bAck "o1" 7)], [("o1", 7)]⟩
      ⟨"status", 7, some "o1", "submitted", 0, none, false⟩ "o1" (.bAck "o1" 7)
      rfl rfl (by decide)
  simpa [entryOid, show ("submitted" : String) ≠ "filled" from by decide] using h

/-- Counterexample to C4 as stated: on `status=filled` with
`remaining = 5` the claim calls for `resp = "broker_" + "filled"`, but
the translator emits the `Status` with a null `resp` (only the
`remaining == 0` case is relabelled; the nonzero case falls through
with `resp` unset). -/
theorem C4_broker_status_counterexample :
    translate_and_relay_step ⟨[], [], [("o1", .bAck "o1" 7)], [("o1", 7)]⟩
        ⟨"status", 7, none, "filled", 5, none, false⟩ =
      .ok (⟨[], [], [("o1", .bAck "o1" 7)], [("o1", 7)]⟩,
        [.statusMsg "o1" none none none (some 7)
          (some ⟨"status", 7, none, "filled", 5, none, false⟩)]) ∧
    (none : Option String) ≠ some ("broker_" ++ "filled") := by
  decide

/-- If an oid is in none of the snapshot keys and absent from the live
entries dict, the entries scan emits no message for it and leaves it
absent. -/
theorem cdte_oid_absent (sym ttype : String) (price : ℚ) (oid : String) :
    ∀ (snap execs : List (String × Entry)) (symVar : String)
      (ems : List (String × EmsEntry)) (out : List OutMsg),
    (∀ q ∈ snap, q.1 ≠ oid) → lookA execs oid = none →
    (∀ m ∈ out, outOid m ≠ some oid) →
    lookA (clear_dark_triggers_entries sym ttype price snap execs symVar ems out).1 oid = none ∧
    (∀ m ∈ (clear_dark_triggers_entries sym ttype price snap execs symVar ems out).2.2.2,
      outOid m ≠ some oid) := by
  intro snap
  induction snap with
  | nil =>
    intro execs symVar ems out h1 h2 h3
    exact ⟨h2, h3⟩
  | cons q rest ih =>
    intro execs symVar ems out h1 h2 h3
    obtain ⟨qoid, e⟩ := q
    have hq : qoid ≠ oid := h1 (qoid, e) (by simp)
    have h1r : ∀ r ∈ rest, r.1 ≠ oid := fun r hr => h1 r (by simp [hr])
    cases hp : e.pred with
    | none =>
      simp only [clear_dark_triggers_entries, hp]
      exact ih _ _ _ _ h1r h2 h3
    | some p =>
      simp only [clear_dark_triggers_entries, hp]
      by_cases hc : ttype ∈ e.tickFilter ∧ checkPred p price = true
      · rw [if_pos hc]
        by_cases ha : e.cmd.action = "alert"
        · rw [if_pos ha]
          refine ih _ _ _ _ h1r (lookA_delA_none _ _ _ h2) ?_
          intro m hm
          rcases List.mem_append.mp hm with hm | hm
          · exact h3 m hm
          · simp only [List.mem_singleton] at hm
            subst hm
            simp [outOid, hq]
        · rw [if_neg ha]
          refine ih _ _ _ _ h1r (lookA_delA_none _ _ _ h2) ?_
          intro m hm
          rcases List.mem_append.mp hm with hm | hm
          · exact h3 m hm
          · rcases List.mem_cons.mp hm with hm | hm
            · subst hm
              simp [outOid, hq]
            · simp only [List.mem_singleton] at hm
              subst hm
              simp [outOid, hq]
      · rw [if_neg hc]
        exact ih _ _ _ _ h1r h2 h3

/-- When every snapshot entry was registered for the scanned symbol
(its `cmd['symbol']` equals the quote key) and the loop's `symbol`
variable already holds that symbol, the entries scan keeps the
variable at that symbol and the surviving entries keep the property. -/
theorem cdte_symbol_invariant (sym ttype : String) (price : ℚ) :
    ∀ (snap execs : List (String × Entry)) (symVar : String)
      (ems : List (String × EmsEntry)) (out : List OutMsg),
    (∀ q ∈ snap, q.2.cmd.symbol = sym) → symVar = sym →
    (∀ q ∈ execs, q.2.cmd.symbol = sym) →
    (clear_dark_triggers_entries sym ttype price snap execs symVar ems out).2.1 = sym ∧
    (∀ q ∈ (clear_dark_triggers_entries sym ttype price snap execs symVar ems out).1,
      q.2.cmd.symbol = sym) := by
  intro snap
  induction snap with
  | nil =>
    intro execs symVar ems out h1 h2 h3
    exact ⟨h2, h3⟩
  | cons q rest ih =>
    intro execs symVar ems out h1 h2 h3
    obtain ⟨qoid, e⟩ := q
    have hq : e.cmd.symbol = sym := h1 (qoid, e) (by simp)
    have h1r : ∀ r ∈ rest, r.2.cmd.symbol = sym := fun r hr => h1 r (by simp [hr])
    have h3d : ∀ q ∈ delA execs qoid, q.2.cmd.symbol = sym :=
      fun r hr => h3 r (mem_delA hr)
    cases hp : e.pred with
    | none =>
      simp only [clear_dark_triggers_entries, hp]
      exact ih _ _ _ _ h1r h2 h3
    | some p =>
      simp only [clear_dark_triggers_entries, hp]
      by_cases hc : ttype ∈ e.tickFilter ∧ checkPred p price = true
      · rw [if_pos hc]
        by_cases ha : e.cmd.action = "alert"
        · rw [if_pos ha]
          exact ih _ _ _ _ h1r hq h3d
        · rw [if_neg ha]
          exact ih _ _ _ _ h1r hq h3d
      · rw [if_neg hc]
        exact ih _ _ _ _ h1r h2 h3

/-- The per-quote scan invariant for a session whose dark entries all
target the scanned symbol. -/
def scanInv (sym : String) (s : ScanSt) : Prop :=
  s.symVar = sym ∧ ∀ q ∈ s.execs, q.2.cmd.symbol = sym

/-- Folding the tick scan over a tick list preserves the invariant,
and `lasts[(broker, sym)]` ends at the price of the last tick scanned
(unchanged when there are none). -/
theorem tick_fold_lasts (broker sym : String) :
    ∀ (ts : List Tick) (s : ScanSt), scanInv sym s →
    scanInv sym (ts.foldl (clear_dark_triggers_tick broker sym) s) ∧
    lookA (ts.foldl (clear_dark_triggers_tick broker sym) s).lasts (broker, sym) =
      (match ts.getLast? with
       | some t => some t.price
       | none => lookA s.lasts (broker, sym)) := by
  intro ts
  induction ts with
  | nil =>
    intro s hs
    exact ⟨hs, rfl⟩
  | cons t rest ih =>
    intro s hs
    obtain ⟨hsv, hex⟩ := hs
    have hstep := cdte_symbol_invariant sym t.type t.price s.execs s.execs s.symVar s.ems s.out
      hex hsv hex
    have hs1 : scanInv sym (clear_dark_triggers_tick broker sym s t) :=
      ⟨hstep.1, hstep.2⟩
    have hl1 : lookA (clear_dark_triggers_tick broker sym s t).lasts (broker, sym) =
        some t.price := by
      simp only [clear_dark_triggers_tick, hsv]
      exact lookA_setA_self _ _ _
    have hrest := ih (clear_dark_triggers_tick broker sym s t) hs1
    cases rest with
    | nil =>
      simpa [hl1] using hrest
    | cons b bs =>
      simp only [List.foldl_cons] at hrest ⊢
      rw [List.getLast?_cons_cons]
      exact hrest

/-- Folding the tick scan preserves the absence of an oid from the
live entries dict and produces no outbound message for it. -/
theorem tick_fold_oid_absent (broker sym oid : String) :
    ∀ (ts : List Tick) (s : ScanSt),
    lookA s.execs oid = none → (∀ m ∈ s.out, outOid m ≠ some oid) →
    lookA (ts.foldl (clear_dark_triggers_tick broker sym) s).execs oid = none ∧
    (∀ m ∈ (ts.foldl (clear_dark_triggers_tick broker sym) s).out,
      outOid m ≠ some oid) := by
  intro ts
  induction ts with
  | nil =>
    intro s h1 h2
    exact ⟨h1, h2⟩
  | cons t rest ih =>
    intro s h1 h2
    have hstep := cdte_oid_absent sym t.type t.price oid s.execs s.execs s.symVar s.ems s.out
      (forall_of_lookA_none _ _ h1) h1 h2
    exact ih (clear_dark_triggers_tick broker sym s t) hstep.1 hstep.2

/-- C2: a registered dark or alert entry fires at most once.  (i) On a
tick that triggers the entry (its type passes the `iterticks` price
filter and the entry's own tick filter and the predicate holds), the
scan emits the `alert_triggered`/`dark_triggered` status and the
entry is removed from `orders[symbol]` (the dict survives, emptied);
(ii) once the oid is absent from `orders[symbol]`, no sequence of
further ticks produces any outbound message carrying that oid, and
the oid stays absent. -/
theorem C2_dark_entry_fires_at_most_once :
    (∀ (broker sym symVar oid ttype : String) (tickprice : ℚ) (book : DarkBook)
       (e : Entry) (p : TriggerPred),
       lookA book.orders sym = some [(oid, e)] →
       e.pred = some p → ttype ∈ e.tickFilter → ttype ∈ iterticksTypes →
       checkPred p tickprice = true →
       lookA (clear_dark_triggers_quote broker book symVar sym [⟨ttype, tickprice⟩]).1.orders
           sym = some [] ∧
       OutMsg.statusMsg oid
           (some (if e.cmd.action = "alert" then "alert_triggered" else "dark_triggered"))
           (some e.cmd.symbol) (some tickprice) none none ∈
         (clear_dark_triggers_quote broker book symVar sym [⟨ttype, tickprice⟩]).2.2) ∧
    (∀ (broker sym symVar oid : String) (book : DarkBook) (execs : List (String × Entry))
       (ticks : List Tick),
       lookA book.orders sym = some execs → lookA execs oid = none →
       (∀ m ∈ (clear_dark_triggers_quote broker book symVar sym ticks).2.2,
         outOid m ≠ some oid) ∧
       ∃ execs2,
         lookA (clear_dark_triggers_quote broker book symVar sym ticks).1.orders sym =
           some execs2 ∧ lookA execs2 oid = none) := by
  constructor
  · intro broker sym symVar oid ttype tickprice book e p h1 hp htf htt hck
    have hit : iterticks [⟨ttype, tickprice⟩] iterticksTypes = [⟨ttype, tickprice⟩] := by
      simp [iterticks, htt]
    simp only [clear_dark_triggers_quote, h1, hit, List.foldl_cons, List.foldl_nil]
    by_cases ha : e.cmd.action = "alert"
    · simp [clear_dark_triggers_tick, clear_dark_triggers_entries, hp, htf, hck, ha, delA,
            lookA_setA_self]
    · simp [clear_dark_triggers_tick, clear_dark_triggers_entries, hp, htf, hck, ha, delA,
            lookA_setA_self]
  · intro broker sym symVar oid book execs ticks h1 h2
    have hfold := tick_fold_oid_absent broker sym oid (iterticks ticks iterticksTypes)
      ⟨execs, book.orders, book.lasts, symVar, book.ems_entries, []⟩ h2 (by simp)
    constructor
    · simp only [clear_dark_triggers_quote, h1]
      exact hfold.2
    · simp only [clear_dark_triggers_quote, h1]
      exact ⟨_, lookA_setA_self _ _ _, hfold.1⟩

/-- Witness for C2 at the spec's alert scenario: with `o3` registered
as an alert at 100, the tick `trade@101` fires `alert_triggered` and
removes the entry, and from the emptied book a further `trade@102`
tick produces no message for `o3`. -/
theorem C2_dark_entry_fires_at_most_once_witness :
    (lookA (clear_dark_triggers_quote "kraken"
        ⟨[("xbtusd", [("o3", ⟨some (.gte 100), ["trade", "utrade", "last"],
            ⟨"alert", "o3", "xbtusd", 100, 1, "dark", ["kraken"]⟩, 0, 0⟩)])], [], [], []⟩
        "xbtusd" "xbtusd" [⟨"trade", 101⟩]).1.orders "xbtusd" = some [] ∧
      OutMsg.statusMsg "o3" (some "alert_triggered") (some "xbtusd") (some 101) none none ∈
        (clear_dark_triggers_quote "kraken"
          ⟨[("xbtusd", [("o3", ⟨some (.gte 100), ["trade", "utrade", "last"],
              ⟨"alert", "o3", "xbtusd", 100, 1, "dark", ["kraken"]⟩, 0, 0⟩)])], [], [], []⟩
          "xbtusd" "xbtusd" [⟨"trade", 101⟩]).2.2) ∧
    (∀ m ∈ (clear_dark_triggers_quote "kraken" ⟨[("xbtusd", [])], [], [], []⟩
        "xbtusd" "xbtusd" [⟨"trade", 102⟩]).2.2, outOid m ≠ some "o3") :=
  ⟨C2_dark_entry_fires_at_most_once.1 "kraken" "xbtusd" "xbtusd" "o3" "trade" 101
      ⟨[("xbtusd", [("o3", ⟨some (.gte 100), ["trade", "utrade", "last"],
          ⟨"alert", "o3", "xbtusd", 100, 1, "dark", ["kraken"]⟩, 0, 0⟩)])], [], [], []⟩
      ⟨some (.gte 100), ["trade", "utrade", "last"],
        ⟨"alert", "o3", "xbtusd", 100, 1, "dark", ["kraken"]⟩, 0, 0⟩ (.gte 100)
      (by decide) rfl (by decide) (by decide) (by decide),
   (C2_dark_entry_fires_at_most_once.2 "kraken" "xbtusd" "xbtusd" "o3"
      ⟨[("xbtusd", [])], [], [], []⟩ [] [⟨"trade", 102⟩] (by decide) (by decide)).1⟩

/-- C7 (amended): the dark trigger loop scans a quote — and with it
updates `lasts` — only when `orders` holds an entry dict (possibly
empty) for the quote's symbol.  In that case, for a session whose
registered entries all target that symbol and whose loop `symbol`
variable holds it, `lasts[(broker, symbol)]` ends the quote at the
price of the last tick of type ask/bid/trade/last; when no dict
exists for the symbol the whole quote is skipped and the book (and
`lasts` with it) is returned unchanged. -/
theorem C7_lasts_tracks_most_recent_tick (broker sym symVar : String) (book : DarkBook)
    (execs0 : List (String × Entry)) (ticks : List Tick) (tl : Tick)
    (h1 : lookA book.orders sym = some execs0)
    (h2 : symVar = sym)
    (h3 : ∀ q ∈ execs0, q.2.cmd.symbol = sym)
    (h4 : (iterticks ticks iterticksTypes).getLast? = some tl) :
    lookA (clear_dark_triggers_quote broker book symVar sym ticks).1.lasts (broker, sym) =
      some tl.price ∧
    (∀ b2 : DarkBook, lookA b2.orders sym = none →
      clear_dark_triggers_quote broker b2 symVar sym ticks = (b2, symVar, [])) := by
  constructor
  · have hfold := tick_fold_lasts broker sym (iterticks ticks iterticksTypes)
      ⟨execs0, book.orders, book.lasts, symVar, book.ems_entries, []⟩ ⟨h2, h3⟩
    simp only [clear_dark_triggers_quote, h1]
    rw [hfold.2, h4]
  · intro b2 hnone
    simp [clear_dark_triggers_quote, hnone]

/-- Witness for C7 (amended): once a (here empty) entry dict exists
for `xbtusd`, a quote with ticks `trade@41` then `last@42` leaves
`lasts[(kraken, xbtusd)] = 42`, the most recent tick's price. -/
theorem C7_lasts_tracks_most_recent_tick_witness :
    lookA (clear_dark_triggers_quote "kraken" ⟨[("xbtusd", [])], [], [], []⟩
      "xbtusd" "xbtusd" [⟨"trade", 41⟩, ⟨"last", 42⟩]).1.lasts ("kraken", "xbtusd") =
      some 42 :=
  (C7_lasts_tracks_most_recent_tick "kraken" "xbtusd" "xbtusd"
    ⟨[("xbtusd", [])], [], [], []⟩ [] [⟨"trade", 41⟩, ⟨"last", 42⟩] ⟨"last", 42⟩
    (by decide) rfl (by simp) (by decide)).1

/-- Counterexample to C7 as stated: with no dark orders registered for
the symbol, the trigger loop skips the quote entirely — a `trade@42`
tick leaves `lasts` empty instead of updating it to 42. -/
theorem C7_lasts_not_updated_counterexample :
    clear_dark_triggers_quote "kraken" ⟨[], [], [], []⟩ "xbtusd" "xbtusd" [⟨"trade", 42⟩] =
      (⟨[], [], [], []⟩, "xbtusd", []) ∧
    lookA (⟨[], [], [], []⟩ : DarkBook).lasts ("kraken", "xbtusd") = none := by
  decide

/-- C1: dark buy/sell round trip.  Submitting a dark buy (resp. sell)
for a fresh symbol registers it with tick filter `{ask,last,trade}`
(resp. `{bid,last,trade}`) and `abs_diff_away = +5·min_tick` (resp.
`−5·min_tick`), answering `dark_submitted`; a subsequent tick passing
the entry's filter whose price satisfies the registered predicate
makes the trigger loop send `BrokerdOrder(action, oid, reqid=None,
symbol, price = tick price + abs_diff_away, size)` followed by
`Status(resp=dark_triggered, trigger_price=tick price)`, record that
order as `_ems_entries[oid]`, and remove the entry from
`orders[symbol]`. -/
theorem C1_dark_trigger_round_trip :
    (∀ (broker sym oid : String) (trig last size mintick tickprice : ℚ)
        (book : DarkBook) (ttype : String) (p : TriggerPred)
        (st1 : ProcState) (out1 : List OutMsg),
      lookA book.orders sym = none →
      lookA book.lasts (broker, sym) = some last →
      mk_check trig last "buy" = some p →
      checkPred p tickprice = true →
      ttype ∈ (["ask", "last", "trade"] : List String) →
      process_client_order_cmds_step sym mintick ⟨book, none⟩
        ⟨"buy", oid, sym, trig, size, "dark", [broker]⟩ = .ok (st1, out1) →
      out1 = [.statusMsg oid (some "dark_submitted") none none none none] ∧
      (clear_dark_triggers_quote broker st1.book sym sym [⟨ttype, tickprice⟩]).2.2 =
        [.brokerdOrder "buy" oid none sym (tickprice + 5 * mintick) size,
         .statusMsg oid (some "dark_triggered") (some sym) (some tickprice) none none] ∧
      lookA (clear_dark_triggers_quote broker st1.book sym sym [⟨ttype, tickprice⟩]).1.orders
        sym = some [] ∧
      lookA (clear_dark_triggers_quote broker st1.book sym sym
          [⟨ttype, tickprice⟩]).1.ems_entries oid =
        some (.bOrder "buy" oid none sym (tickprice + 5 * mintick) size)) ∧
    (∀ (broker sym oid : String) (trig last size mintick tickprice : ℚ)
        (book : DarkBook) (ttype : String) (p : TriggerPred)
        (st1 : ProcState) (out1 : List OutMsg),
      lookA book.orders sym = none →
      lookA book.lasts (broker, sym) = some last →
      mk_check trig last "sell" = some p →
      checkPred p tickprice = true →
      ttype ∈ (["bid", "last", "trade"] : List String) →
      process_client_order_cmds_step sym mintick ⟨book, none⟩
        ⟨"sell", oid, sym, trig, size, "dark", [broker]⟩ = .ok (st1, out1) →
      out1 = [.statusMsg oid (some "dark_submitted") none none none none] ∧
      (clear_dark_triggers_quote broker st1.book sym sym [⟨ttype, tickprice⟩]).2.2 =
        [.brokerdOrder "sell" oid none sym (tickprice + -(5 * mintick)) size,
         .statusMsg oid (some "dark_triggered") (some sym) (some tickprice) none none] ∧
      lookA (clear_dark_triggers_quote broker st1.book sym sym [⟨ttype, tickprice⟩]).1.orders
        sym = some [] ∧
      lookA (clear_dark_triggers_quote broker st1.book sym sym
          [⟨ttype, tickprice⟩]).1.ems_entries oid =
        some (.bOrder "sell" oid none sym (tickprice + -(5 * mintick)) size)) := by
  constructor
  · intro broker sym oid trig last size mintick tickprice book ttype p st1 out1
      h1 h2 hmk hck htf hok
    have hbc : ("buy" : String) ≠ "cancel" := by decide
    have hba : ("buy" : String) ≠ "alert" := by decide
    have hdl : ("dark" : String) ≠ "live" := by decide
    have hstep : process_client_order_cmds_step sym mintick ⟨book, none⟩
        ⟨"buy", oid, sym, trig, size, "dark", [broker]⟩ =
        .ok (⟨⟨setA book.orders sym [(oid, ⟨some p, ["ask", "last", "trade"],
              ⟨"buy", oid, sym, trig, size, "dark", [broker]⟩, 1 / 200, 5 * mintick⟩)],
            book.lasts, book.ems_entries, book.ems2brokerd_ids⟩,
          some (.clientOrder ⟨"buy", oid, sym, trig, size, "dark", [broker]⟩)⟩,
          [.statusMsg oid (some "dark_submitted") none none none none]) := by
      simp [process_client_order_cmds_step, hbc, hba, hdl, h1, h2, hmk, setA]
    rw [hstep] at hok
    simp only [Except.ok.injEq, Prod.mk.injEq] at hok
    obtain ⟨hst, hout⟩ := hok
    subst hst
    subst hout
    have htt : ttype ∈ iterticksTypes := by
      have h := htf
      simp only [List.mem_cons, List.not_mem_nil, or_false] at h
      rcases h with rfl | rfl | rfl <;> decide
    have hit : iterticks [⟨ttype, tickprice⟩] iterticksTypes = [⟨ttype, tickprice⟩] := by
      simp [iterticks, htt]
    refine ⟨rfl, ?_, ?_, ?_⟩ <;>
      simp only [clear_dark_triggers_quote, lookA_setA_self, hit,
        List.foldl_cons, List.foldl_nil] <;>
      simp [clear_dark_triggers_tick, clear_dark_triggers_entries, hck, htf, hba, delA,
        lookA_setA_self]
  · intro broker sym oid trig last size mintick tickprice book ttype p st1 out1
      h1 h2 hmk hck htf hok
    have hbc : ("sell" : String) ≠ "cancel" := by decide
    have hba : ("sell" : String) ≠ "alert" := by decide
    have hbb : ("sell" : String) ≠ "buy" := by decide
    have hdl : ("dark" : String) ≠ "live" := by decide
    have hstep : process_client_order_cmds_step sym mintick ⟨book, none⟩
        ⟨"sell", oid, sym, trig, size, "dark", [broker]⟩ =
        .ok (⟨⟨setA book.orders sym [(oid, ⟨some p, ["bid", "last", "trade"],
              ⟨"sell", oid, sym, trig, size, "dark", [broker]⟩, -(1 / 200), -(5 * mintick)⟩)],
            book.lasts, book.ems_entries, book.ems2brokerd_ids⟩,
          some (.clientOrder ⟨"sell", oid, sym, trig, size, "dark", [broker]⟩)⟩,
          [.statusMsg oid (some "dark_submitted") none none none none]) := by
      simp [process_client_order_cmds_step, hbc, hba, hbb, hdl, h1, h2, hmk, setA]
    rw [hstep] at hok
    simp only [Except.ok.injEq, Prod.mk.injEq] at hok
    obtain ⟨hst, hout⟩ := hok
    subst hst
    subst hout
    have htt : ttype ∈ iterticksTypes := by
      have h := htf
      simp only [List.mem_cons, List.not_mem_nil, or_false] at h
      rcases h with rfl | rfl | rfl <;> decide
    have hit : iterticks [⟨ttype, tickprice⟩] iterticksTypes = [⟨ttype, tickprice⟩] := by
      simp [iterticks, htt]
    refine ⟨rfl, ?_, ?_, ?_⟩ <;>
      simp only [clear_dark_triggers_quote, lookA_setA_self, hit,
        List.foldl_cons, List.foldl_nil] <;>
      simp [clear_dark_triggers_tick, clear_dark_triggers_entries, hck, htf, hba, delA,
        lookA_setA_self]

/-- Witness for C1 at the spec's dark-buy scenario (`last=150`, buy
145, `min_tick=1/100`, tick `ask@144`): the trigger loop sends the
order at `144 + 5·min_tick`, relays `dark_triggered` with trigger
price 144, records the order as the flow entry and empties
`orders[xbtusd]`. -/
theorem C1_dark_trigger_round_trip_witness :
    (clear_dark_triggers_quote "kraken"
        ⟨[("xbtusd", [("o1", ⟨some (.lte 145), ["ask", "last", "trade"],
            ⟨"buy", "o1", "xbtusd", 145, 10, "dark", ["kraken"]⟩, 1 / 200, 5 * ((1 : ℚ) / 100)⟩)])],
          [(("kraken", "xbtusd"), 150)], [], []⟩ "xbtusd" "xbtusd" [⟨"ask", 144⟩]).2.2 =
      [.brokerdOrder "buy" "o1" none "xbtusd" (144 + 5 * ((1 : ℚ) / 100)) 10,
       .statusMsg "o1" (some "dark_triggered") (some "xbtusd") (some 144) none none] ∧
    lookA (clear_dark_triggers_quote "kraken"
        ⟨[("xbtusd", [("o1", ⟨some (.lte 145), ["ask", "last", "trade"],
            ⟨"buy", "o1", "xbtusd", 145, 10, "dark", ["kraken"]⟩, 1 / 200, 5 * ((1 : ℚ) / 100)⟩)])],
          [(("kraken", "xbtusd"), 150)], [], []⟩ "xbtusd" "xbtusd" [⟨"ask", 144⟩]).1.orders
      "xbtusd" = some [] ∧
    lookA (clear_dark_triggers_quote "kraken"
        ⟨[("xbtusd", [("o1", ⟨some (.lte 145), ["ask", "last", "trade"],
            ⟨"buy", "o1", "xbtusd", 145, 10, "dark", ["kraken"]⟩, 1 / 200, 5 * ((1 : ℚ) / 100)⟩)])],
          [(("kraken", "xbtusd"), 150)], [], []⟩ "xbtusd" "xbtusd" [⟨"ask", 144⟩]).1.ems_entries
      "o1" = some (.bOrder "buy" "o1" none "xbtusd" (144 + 5 * ((1 : ℚ) / 100)) 10) := by
  have hok : process_client_order_cmds_step "xbtusd" ((1 : ℚ) / 100)
      ⟨⟨[], [(("kraken", "xbtusd"), 150)], [], []⟩, none⟩
      ⟨"buy", "o1", "xbtusd", 145, 10, "dark", ["kraken"]⟩ =
      .ok (⟨⟨[("xbtusd", [("o1", ⟨some (.lte 145), ["ask", "last", "trade"],
              ⟨"buy", "o1", "xbtusd", 145, 10, "dark", ["kraken"]⟩, 1 / 200,
              5 * ((1 : ℚ) / 100)⟩)])],
            [(("kraken", "xbtusd"), 150)], [], []⟩,
          some (.clientOrder ⟨"buy", "o1", "xbtusd", 145, 10, "dark", ["kraken"]⟩)⟩,
          [.statusMsg "o1" (some "dark_submitted") none none none none]) := by
    have h145a : ¬((145 : ℚ) ≥ 150) := by norm_num
    have h145b : (145 : ℚ) ≤ 150 := by norm_num
    simp [process_client_order_cmds_step, mk_check, lookA, setA, h145a, h145b]
  have h := C1_dark_trigger_round_trip.1 "kraken" "xbtusd" "o1" 145 150 10 ((1 : ℚ) / 100) 144
    ⟨[], [(("kraken", "xbtusd"), 150)], [], []⟩ "ask" (.lte 145)
    ⟨⟨[("xbtusd", [("o1", ⟨some (.lte 145), ["ask", "last", "trade"],
        ⟨"buy", "o1", "xbtusd", 145, 10, "dark", ["kraken"]⟩, 1 / 200, 5 * ((1 : ℚ) / 100)⟩)])],
      [(("kraken", "xbtusd"), 150)], [], []⟩,
      some (.clientOrder ⟨"buy", "o1", "xbtusd", 145, 10, "dark", ["kraken"]⟩)⟩
    [.statusMsg "o1" (some "dark_submitted") none none none none]
    rfl (by decide) (by decide) (by decide) (by decide) hok
  exact ⟨h.2.1, h.2.2.1, h.2.2.2⟩
